import Mathlib

/-
Verification of the periodogram wrappers in periodicity/periodogram.py.

The module defines three thin wrapper functions over two external
libraries (astropy.stats.LombScargle and wavelets.WaveletAnalysis):

  lombscargle(t, x, dx=None, f0=0, fmax=None, n=5,
              fap_method=None, fap_level=None, psd=False)
  window(t, n=5)
  wavelet(t, x, pmin=0, pmax=None, n_periods=1000)

The numeric library routines themselves are external to the repository,
so they are modelled as function parameters; everything the wrapper code
itself computes (the pseudo-Nyquist default maximum frequency from the
median sampling interval, the construction arguments of the library
model objects, the false-alarm-method assertion, the control flow and
the shapes of the returned tuples) is embedded directly from the source.
Machine floats are modelled as rationals; library calls that may raise
are modelled as Except-valued functions, and an exception raised in the
wrapper itself (the assert on fap_method) is an Except.error of the
wrapper.
-/

namespace Periodicity

/-- Model of numpy.diff: consecutive differences t[i+1] - t[i]. -/
def np_diff : List ℚ → List ℚ
  | a :: b :: rest => (b - a) :: np_diff (b :: rest)
  | _ => []

/-- Model of numpy.median: sort ascending, take the middle element for odd
length, the mean of the two middle elements for even length.  numpy returns
NaN on an empty array; the model returns the junk value 0 there, and every
theorem that depends on the median constrains its input to be nonempty. -/
def np_median (l : List ℚ) : ℚ :=
  let s := l.insertionSort (· ≤ ·)
  let n := l.length
  if n % 2 = 1 then s.getD (n / 2) 0
  else (s.getD (n / 2 - 1) 0 + s.getD (n / 2) 0) / 2

/-- Model of ndarray.max() for the nonempty arrays the code applies it to
(numpy raises on an empty array; the model returns the junk value 0 there). -/
def npMax : List ℚ → ℚ
  | [] => 0
  | h :: tl => tl.foldl max h

/-- Model of an astropy.stats.LombScargle object: it records its
construction arguments.  astropy defaults are fit_mean=True,
center_data=True, normalization='standard'; a scalar y argument is
broadcast against t.  The numeric methods of the object are supplied
separately as function parameters of the wrappers. -/
structure LombScargle where
  t : List ℚ
  y : List ℚ
  dy : Option (List ℚ)
  normalization : String
  fit_mean : Bool
  center_data : Bool
deriving DecidableEq

/-- The LombScargle construction performed by lombscargle():
LombScargle(t, x, dy=dx, normalization='psd') when psd is true, else
LombScargle(t, x, dy=dx) with the library default normalization. -/
def mkLombScargle (t x : List ℚ) (dx : Option (List ℚ)) (psd : Bool) :
    LombScargle :=
  if psd then ⟨t, x, dx, "psd", true, true⟩
  else ⟨t, x, dx, "standard", true, true⟩

/-- The two recognized false-alarm-probability method names. -/
def allowedFapMethods : List String := ["baluev", "bootstrap"]

/-- The maximum frequency lombscargle() passes to autopower: the given fmax
when one is supplied, otherwise the pseudo-Nyquist default computed as
T = median(diff(t)); fs = 1/T; fmax = fs/2. -/
def resolvedFmax (t : List ℚ) (fmax : Option ℚ) : ℚ :=
  match fmax with
  | some fm => fm
  | none =>
    let T := np_median (np_diff t)
    let fs := 1 / T
    fs / 2

/-- Exception-aware model of the same default-fmax computation: the source
line fs = 1 / T is a Python float division, which raises ZeroDivisionError
when T = median(diff(t)) is 0.0 — that happens exactly when the difference
array is nonempty with median zero (for an empty difference array numpy
yields NaN, NaN is not 0.0 and the division returns NaN without raising,
a value outside the rational model that the else-branch maps to the same
total result as resolvedFmax). -/
def resolvedFmaxE (t : List ℚ) (fmax : Option ℚ) : Except String ℚ :=
  match fmax with
  | some fm => .ok fm
  | none =>
    let T := np_median (np_diff t)
    if np_diff t ≠ [] ∧ T = 0 then .error "ZeroDivisionError"
    else .ok (1 / T / 2)

/-- The three possible return shapes of lombscargle(): (ls, f, a),
(ls, f, a, fap) or (ls, f, a, fap, fal). -/
inductive LSReturn where
  | three : LombScargle → List ℚ → List ℚ → LSReturn
  | four : LombScargle → List ℚ → List ℚ → ℚ → LSReturn
  | five : LombScargle → List ℚ → List ℚ → ℚ → List ℚ → LSReturn
deriving DecidableEq

/-- Number of components of the returned tuple. -/
def LSReturn.arity : LSReturn → Nat
  | .three _ _ _ => 3
  | .four _ _ _ _ => 4
  | .five _ _ _ _ _ => 5

/-- Embedding of lombscargle().  The library numerics are parameters:
autopowerF models ls.autopower(samples_per_peak=n, minimum_frequency=f0,
maximum_frequency=fmax) (the last argument is none when not passed), fapF
models ls.false_alarm_probability(power, method, minimum_frequency,
maximum_frequency, samples_per_peak) and falF models
ls.false_alarm_level(fap_level, method, ...) likewise, each returning
Except to model a raised library exception.  The wrapper control flow,
the default-fmax computation, the assert on fap_method (an Except.error
with the formatted assertion message) and the returned tuple shapes are
translated from the source. -/
def lombscargle
    (autopowerF : LombScargle → ℚ → ℚ → Option ℚ → Except String (List ℚ × List ℚ))
    (fapF : LombScargle → ℚ → String → ℚ → ℚ → ℚ → Except String ℚ)
    (falF : LombScargle → List ℚ → String → ℚ → ℚ → ℚ → Except String (List ℚ))
    (t x : List ℚ) (dx : Option (List ℚ)) (f0 : ℚ) (fmax : Option ℚ) (n : ℚ)
    (fap_method : Option String) (fap_level : Option (List ℚ)) (psd : Bool) :
    Except String LSReturn :=
  let ls := mkLombScargle t x dx psd
  let fmaxR := resolvedFmax t fmax
  match autopowerF ls n f0 (some fmaxR) with
  | .error e => .error e
  | .ok (f, a) =>
    match fap_method with
    | none => .ok (.three ls f a)
    | some m =>
      if m ∈ allowedFapMethods then
        match fapF ls (npMax a) m f0 fmaxR n with
        | .error e => .error e
        | .ok fap =>
          match fap_level with
          | none => .ok (.four ls f a fap)
          | some lvl =>
            match falF ls lvl m f0 fmaxR n with
            | .error e => .error e
            | .ok fal => .ok (.five ls f a fap fal)
      else .error ("Unknown FAP method " ++ m)

/-- Embedding of lombscargle() refining the one above by also modelling the
exception of the wrapper's own default-fmax computation: the body is
identical except that the fmax resolution goes through resolvedFmaxE, so a
ZeroDivisionError at fs = 1 / T (raised before any library call, as in the
source where lines 49-52 precede the autopower call) surfaces as an error of
the wrapper itself. -/
def lombscargleE
    (autopowerF : LombScargle → ℚ → ℚ → Option ℚ → Except String (List ℚ × List ℚ))
    (fapF : LombScargle → ℚ → String → ℚ → ℚ → ℚ → Except String ℚ)
    (falF : LombScargle → List ℚ → String → ℚ → ℚ → ℚ → Except String (List ℚ))
    (t x : List ℚ) (dx : Option (List ℚ)) (f0 : ℚ) (fmax : Option ℚ) (n : ℚ)
    (fap_method : Option String) (fap_level : Option (List ℚ)) (psd : Bool) :
    Except String LSReturn :=
  let ls := mkLombScargle t x dx psd
  match resolvedFmaxE t fmax with
  | .error e => .error e
  | .ok fmaxR =>
    match autopowerF ls n f0 (some fmaxR) with
    | .error e => .error e
    | .ok (f, a) =>
      match fap_method with
      | none => .ok (.three ls f a)
      | some m =>
        if m ∈ allowedFapMethods then
          match fapF ls (npMax a) m f0 fmaxR n with
          | .error e => .error e
          | .ok fap =>
            match fap_level with
            | none => .ok (.four ls f a fap)
            | some lvl =>
              match falF ls lvl m f0 fmaxR n with
              | .error e => .error e
              | .ok fal => .ok (.five ls f a fap fal)
        else .error ("Unknown FAP method " ++ m)

/-- Embedding of window(): ls = LombScargle(t, 1, fit_mean=False,
center_data=False) (the scalar 1 broadcasts to an all-ones signal of the
length of t), then ls.autopower(minimum_frequency=0, samples_per_peak=n)
with no maximum frequency, returning the (f, a) pair. -/
def window
    (autopowerF : LombScargle → ℚ → ℚ → Option ℚ → Except String (List ℚ × List ℚ))
    (t : List ℚ) (n : ℚ) : Except String (List ℚ × List ℚ) :=
  autopowerF ⟨t, List.replicate t.length 1, none, "standard", false, false⟩ n 0 none

/-- Model of a wavelets.WaveletAnalysis object: it records its construction
arguments WaveletAnalysis(x, t, dt=dt, mask_coi=True, unbias=True); its
derived quantities are supplied as function parameters of the wrapper. -/
structure WaveletAnalysis where
  x : List ℚ
  t : List ℚ
  dt : ℚ
  mask_coi : Bool
  unbias : Bool
deriving DecidableEq

/-- Embedding of wavelet().  fourierPeriodsF, waveletPowerF and
globalWaveletSpectrumF model the library attributes wa.fourier_periods,
wa.wavelet_power and wa.global_wavelet_spectrum, Except-valued to model
raised library exceptions.  The wrapper computes dt = median(diff(t)),
builds the WaveletAnalysis object and returns (wa, periods, gwps, wps);
its pmin, pmax and n_periods parameters appear nowhere in the body,
exactly as in the source. -/
def wavelet
    (fourierPeriodsF : WaveletAnalysis → Except String (List ℚ))
    (waveletPowerF : WaveletAnalysis → Except String (List (List ℚ)))
    (globalWaveletSpectrumF : WaveletAnalysis → Except String (List ℚ))
    (t x : List ℚ) (pmin : ℚ) (pmax : Option ℚ) (n_periods : ℕ) :
    Except String (WaveletAnalysis × List ℚ × List ℚ × List (List ℚ)) :=
  let dt := np_median (np_diff t)
  let wa : WaveletAnalysis := ⟨x, t, dt, true, true⟩
  match fourierPeriodsF wa with
  | .error e => .error e
  | .ok periods =>
    match waveletPowerF wa with
    | .error e => .error e
    | .ok wps =>
      match globalWaveletSpectrumF wa with
      | .error e => .error e
      | .ok gwps => .ok (wa, periods, gwps, wps)

/-- Shorthand for the type of the modelled ls.autopower method. -/
abbrev AutopowerFn :=
  LombScargle → ℚ → ℚ → Option ℚ → Except String (List ℚ × List ℚ)

/-- Shorthand for the type of the modelled ls.false_alarm_probability method. -/
abbrev FapFn := LombScargle → ℚ → String → ℚ → ℚ → ℚ → Except String ℚ

/-- Shorthand for the type of the modelled ls.false_alarm_level method. -/
abbrev FalFn := LombScargle → List ℚ → String → ℚ → ℚ → ℚ → Except String (List ℚ)

/-- A concrete always-succeeding autopower instance, for witnesses. -/
def apOk : AutopowerFn := fun _ _ _ _ => .ok ([1], [2])

/-- A concrete always-failing autopower instance, for witnesses. -/
def apBad : AutopowerFn := fun _ _ _ _ => .error "boom"

/-- A concrete always-succeeding false_alarm_probability instance. -/
def fapOk : FapFn := fun _ _ _ _ _ _ => .ok 7

/-- A concrete always-succeeding false_alarm_level instance. -/
def falOk : FalFn := fun _ lvl _ _ _ _ => .ok lvl

/-- A concrete fourier_periods instance, for witnesses. -/
def fp0 : WaveletAnalysis → Except String (List ℚ) := fun _ => .ok [3]

/-- A concrete wavelet_power instance, for witnesses. -/
def wp0 : WaveletAnalysis → Except String (List (List ℚ)) := fun _ => .ok [[1]]

/-- A concrete global_wavelet_spectrum instance, for witnesses. -/
def gw0 : WaveletAnalysis → Except String (List ℚ) := fun _ => .ok [2]

/-- Helper: np.diff shortens its input by one. -/
theorem np_diff_length (t : List ℚ) : (np_diff t).length = t.length - 1 := by
  induction t with
  | nil => rfl
  | cons a tl ih =>
    cases tl with
    | nil => rfl
    | cons b r =>
      simp only [np_diff, List.length_cons] at ih ⊢
      omega

/-- Helper: the consecutive differences of a strictly increasing list are
positive. -/
theorem np_diff_pos :
    ∀ t : List ℚ, List.Chain' (· < ·) t → ∀ d ∈ np_diff t, 0 < d := by
  intro t
  induction t with
  | nil => intro _; simp [np_diff]
  | cons a tl ih =>
    cases tl with
    | nil => intro _; simp [np_diff]
    | cons b r =>
      intro h
      rw [List.chain'_cons] at h
      intro d hd
      simp only [np_diff, List.mem_cons] at hd
      rcases hd with rfl | hd
      · exact sub_pos.mpr h.1
      · exact ih h.2 d hd

/-- Helper: the median of a nonempty list of positive rationals is positive. -/
theorem np_median_pos (l : List ℚ) (hne : l ≠ []) (hpos : ∀ d ∈ l, 0 < d) :
    0 < np_median l := by
  have hperm := List.perm_insertionSort (fun x1 x2 => x1 ≤ x2) l
  have hlen : (l.insertionSort (· ≤ ·)).length = l.length := hperm.length_eq
  have hpos' : ∀ d ∈ l.insertionSort (· ≤ ·), 0 < d :=
    fun d hd => hpos d (hperm.mem_iff.mp hd)
  have h0 : 0 < l.length := List.length_pos.mpr hne
  simp only [np_median]
  by_cases hodd : l.length % 2 = 1
  · rw [if_pos hodd]
    have hi : l.length / 2 < (l.insertionSort (· ≤ ·)).length := by
      rw [hlen]; omega
    rw [List.getD_eq_get _ _ hi]
    exact hpos' _ (List.get_mem _ _ _)
  · rw [if_neg hodd]
    have hi1 : l.length / 2 - 1 < (l.insertionSort (· ≤ ·)).length := by
      rw [hlen]; omega
    have hi2 : l.length / 2 < (l.insertionSort (· ≤ ·)).length := by
      rw [hlen]; omega
    rw [List.getD_eq_get _ _ hi1, List.getD_eq_get _ _ hi2]
    exact div_pos
      (add_pos (hpos' _ (List.get_mem _ _ _)) (hpos' _ (List.get_mem _ _ _)))
      (by norm_num)

/-- C1: when lombscargle is called with fmax=None, the maximum frequency it
passes to autopower (resolvedFmax t none, applied as some (resolvedFmax t fmax)
in the body of lombscargle) equals 1/(2*median(diff(t))), half the inverse of
the median time-sampling interval, whenever that median is nonzero (when it is
zero the source raises ZeroDivisionError at fs = 1 / T instead of calling
autopower). -/
theorem lombscargle_default_fmax (t : List ℚ)
    (h : np_median (np_diff t) ≠ 0) :
    resolvedFmax t none = 1 / (2 * np_median (np_diff t)) := by
  show 1 / np_median (np_diff t) / 2 = 1 / (2 * np_median (np_diff t))
  rw [div_div, mul_comm]

/-- Witness for C1 at the uniformly sampled time array t = [0, 1]. -/
theorem lombscargle_default_fmax_witness :
    np_median (np_diff [0, 1]) ≠ 0 ∧
    resolvedFmax [0, 1] none = 1 / (2 * np_median (np_diff [0, 1])) :=
  ⟨by simp [np_median, np_diff, List.insertionSort, List.orderedInsert],
   lombscargle_default_fmax [0, 1]
     (by simp [np_median, np_diff, List.insertionSort, List.orderedInsert])⟩

/-- C5: the psd flag only changes the normalization argument of the
constructed LombScargle model: with psd=True the model is built with
normalization="psd", with psd=False it carries the library default
normalization "standard", and every other field is identical. -/
theorem lombscargle_psd_flag (t x : List ℚ) (dx : Option (List ℚ)) :
    mkLombScargle t x dx true =
      { mkLombScargle t x dx false with normalization := "psd" } ∧
    (mkLombScargle t x dx true).normalization = "psd" ∧
    (mkLombScargle t x dx false).normalization = "standard" :=
  ⟨rfl, rfl, rfl⟩

/-- C6: window(t, n) builds a LombScargle model over t whose signal is the
all-ones list (the broadcast scalar 1), with fit_mean and center_data
disabled and no uncertainties, evaluates autopower with samples_per_peak=n,
minimum frequency 0 and no maximum frequency, and returns the resulting
(frequencies, power) pair unchanged. -/
theorem window_model (autopowerF : AutopowerFn) (t : List ℚ) (n : ℚ) :
    window autopowerF t n =
      autopowerF ⟨t, List.replicate t.length 1, none, "standard", false, false⟩
        n 0 none :=
  rfl

/-- C3 (bug evidence): the n_periods parameter of wavelet never reaches its
body, so the returned tuple — in particular the trial-periods array and its
length — is identical for any two values of n_periods; the docstring's
promise that n_periods is the number of trial periods therefore fails
whenever the library's scale grid size differs from n_periods, and cannot
hold for two different n_periods values at once. -/
theorem wavelet_ignores_n_periods
    (fpF : WaveletAnalysis → Except String (List ℚ))
    (wpF : WaveletAnalysis → Except String (List (List ℚ)))
    (gwF : WaveletAnalysis → Except String (List ℚ))
    (t x : List ℚ) (pmin : ℚ) (pmax : Option ℚ) (n₁ n₂ : ℕ) :
    wavelet fpF wpF gwF t x pmin pmax n₁ = wavelet fpF wpF gwF t x pmin pmax n₂ :=
  rfl

/-- C10: pmin, pmax and n_periods have no effect on the result of wavelet;
moreover on a successful run the returned time step is median(diff(t)) and
the returned trial periods are exactly the fourier periods of the returned
WaveletAnalysis object. -/
theorem wavelet_params_have_no_effect
    (fpF : WaveletAnalysis → Except String (List ℚ))
    (wpF : WaveletAnalysis → Except String (List (List ℚ)))
    (gwF : WaveletAnalysis → Except String (List ℚ))
    (t x : List ℚ) (p₁ p₂ : ℚ) (pm₁ pm₂ : Option ℚ) (n₁ n₂ : ℕ) :
    wavelet fpF wpF gwF t x p₁ pm₁ n₁ = wavelet fpF wpF gwF t x p₂ pm₂ n₂ ∧
    ∀ r, wavelet fpF wpF gwF t x p₁ pm₁ n₁ = .ok r →
      r.1.dt = np_median (np_diff t) ∧ fpF r.1 = .ok r.2.1 := by
  refine ⟨rfl, ?_⟩
  intro r hr
  cases h1 : fpF ⟨x, t, np_median (np_diff t), true, true⟩ with
  | error e => simp [wavelet, h1, Except.bind] at hr
  | ok ps =>
    cases h2 : wpF ⟨x, t, np_median (np_diff t), true, true⟩ with
    | error e => simp [wavelet, h1, h2, Except.bind] at hr
    | ok w =>
      cases h3 : gwF ⟨x, t, np_median (np_diff t), true, true⟩ with
      | error e => simp [wavelet, h1, h2, h3, Except.bind] at hr
      | ok g =>
        simp [wavelet, h1, h2, h3, Except.bind] at hr
        subst hr
        exact ⟨rfl, h1⟩

/-- Witness for C10 at concrete inputs: two calls differing in all three of
pmin, pmax, n_periods agree, and the concrete returned model satisfies the
stated dt and periods facts. -/
theorem wavelet_params_have_no_effect_witness :
    wavelet fp0 wp0 gw0 [0, 1, 2] [5, 6, 7] 0 none 1000 =
      wavelet fp0 wp0 gw0 [0, 1, 2] [5, 6, 7] 4 (some 9) 17 ∧
    (⟨[5, 6, 7], [0, 1, 2], np_median (np_diff [0, 1, 2]), true, true⟩ :
        WaveletAnalysis).dt = np_median (np_diff [0, 1, 2]) ∧
    fp0 ⟨[5, 6, 7], [0, 1, 2], np_median (np_diff [0, 1, 2]), true, true⟩ =
      .ok [3] := by
  have h := wavelet_params_have_no_effect fp0 wp0 gw0 [0, 1, 2] [5, 6, 7]
    0 4 none (some 9) 1000 17
  exact ⟨h.1,
    (h.2 (⟨[5, 6, 7], [0, 1, 2], np_median (np_diff [0, 1, 2]), true, true⟩,
      [3], [2], [[1]]) rfl).1,
    (h.2 (⟨[5, 6, 7], [0, 1, 2], np_median (np_diff [0, 1, 2]), true, true⟩,
      [3], [2], [[1]]) rfl).2⟩

/-- C2 counterexample: a call whose fap_method value (None) is not an element
of the recognized set {baluev, bootstrap} nevertheless completes without any
assertion error, because the assert is only reached when fap_method is not
None; the claim as stated is therefore false at this input. -/
theorem lombscargle_none_fap_returns_ok :
    (none : Option String) ∉ allowedFapMethods.map some ∧
    lombscargle apOk fapOk falOk [0, 1] [1, 2] none 0 (some 1) 5 none none false =
      .ok (.three ⟨[0, 1], [1, 2], none, "standard", true, true⟩ [1] [2]) :=
  ⟨by simp [allowedFapMethods], rfl⟩

/-- C2 amended: for every call whose fap_method is present (not None) and not
in {baluev, bootstrap}, and whose autopower call (which the source runs
before the assert) returns normally, lombscargle raises the assertion error
with the formatted message. -/
theorem lombscargle_unknown_fap_method_asserts
    (apF : AutopowerFn) (fapF : FapFn) (falF : FalFn)
    (t x : List ℚ) (dx : Option (List ℚ)) (f0 : ℚ) (fm : Option ℚ) (n : ℚ)
    (lvl : Option (List ℚ)) (psd : Bool) (m : String) (fa : List ℚ × List ℚ)
    (hm : m ∉ allowedFapMethods)
    (hap : apF (mkLombScargle t x dx psd) n f0 (some (resolvedFmax t fm)) = .ok fa) :
    lombscargle apF fapF falF t x dx f0 fm n (some m) lvl psd =
      .error ("Unknown FAP method " ++ m) := by
  obtain ⟨f, a⟩ := fa
  simp [lombscargle, hap, hm]

/-- Witness for the amended C2 at the unrecognized method name "foo". -/
theorem lombscargle_unknown_fap_method_asserts_witness :
    "foo" ∉ allowedFapMethods ∧
    lombscargle apOk fapOk falOk [0, 1] [1, 2] none 0 (some 1) 5 (some "foo")
        none false =
      .error ("Unknown FAP method " ++ "foo") :=
  ⟨by decide,
   lombscargle_unknown_fap_method_asserts apOk fapOk falOk [0, 1] [1, 2] none 0
     (some 1) 5 none false "foo" ([1], [2]) (by decide) rfl⟩

/-- C4: when the autopower call succeeds, lombscargle returns a 3-tuple
(ls, f, a) whenever fap_method is None regardless of fap_level, a 4-tuple
(ls, f, a, fap) when fap_method is recognized and fap_level is None, and a
5-tuple (ls, f, a, fap, fal) when fap_method is recognized and fap_level is
given (and the library calls succeed). -/
theorem lombscargle_return_arity
    (apF : AutopowerFn) (fapF : FapFn) (falF : FalFn)
    (t x : List ℚ) (dx : Option (List ℚ)) (f0 : ℚ) (fm : Option ℚ) (n : ℚ)
    (psd : Bool) (f a : List ℚ)
    (hap : apF (mkLombScargle t x dx psd) n f0 (some (resolvedFmax t fm)) =
      .ok (f, a)) :
    (∀ lvl, (lombscargle apF fapF falF t x dx f0 fm n none lvl psd).map
        LSReturn.arity = .ok 3) ∧
    (∀ m p, m ∈ allowedFapMethods →
      fapF (mkLombScargle t x dx psd) (npMax a) m f0 (resolvedFmax t fm) n =
        .ok p →
      (lombscargle apF fapF falF t x dx f0 fm n (some m) none psd).map
        LSReturn.arity = .ok 4) ∧
    (∀ m p lvl fl, m ∈ allowedFapMethods →
      fapF (mkLombScargle t x dx psd) (npMax a) m f0 (resolvedFmax t fm) n =
        .ok p →
      falF (mkLombScargle t x dx psd) lvl m f0 (resolvedFmax t fm) n = .ok fl →
      (lombscargle apF fapF falF t x dx f0 fm n (some m) (some lvl) psd).map
        LSReturn.arity = .ok 5) := by
  refine ⟨?_, ?_, ?_⟩
  · intro lvl
    simp [lombscargle, hap, Except.map, LSReturn.arity]
  · intro m p hm hfap
    simp [lombscargle, hap, hm, hfap, Except.map, LSReturn.arity]
  · intro m p lvl fl hm hfap hfal
    simp [lombscargle, hap, hm, hfap, hfal, Except.map, LSReturn.arity]

/-- Witness for C4: concrete calls of each of the three shapes. -/
theorem lombscargle_return_arity_witness :
    ((lombscargle apOk fapOk falOk [0, 1] [1, 2] none 0 (some 1) 5 none
        (some [0]) false).map LSReturn.arity = .ok 3) ∧
    ((lombscargle apOk fapOk falOk [0, 1] [1, 2] none 0 (some 1) 5
        (some "baluev") none false).map LSReturn.arity = .ok 4) ∧
    ((lombscargle apOk fapOk falOk [0, 1] [1, 2] none 0 (some 1) 5
        (some "baluev") (some [0]) false).map LSReturn.arity = .ok 5) := by
  have h := lombscargle_return_arity apOk fapOk falOk [0, 1] [1, 2] none 0
    (some 1) 5 false [1] [2] rfl
  exact ⟨h.1 (some [0]), h.2.1 "baluev" 7 (by decide) rfl,
    h.2.2 "baluev" 7 [0] [0] (by decide) rfl rfl⟩

/-- C9: under the precondition that t is strictly increasing with at least
two elements, the default-fmax divisor T = median(diff(t)) is positive, so
1/T and fs/2 are well-defined; and without the precondition the computation
degenerates: repeated times give T = 0 (a Python ZeroDivisionError at
fs = 1/T), and fewer than two samples give an empty difference array (numpy
median over an empty array). -/
theorem default_fmax_divisor_wellformed (t : List ℚ)
    (hmono : List.Chain' (· < ·) t) (hlen : 2 ≤ t.length) :
    0 < np_median (np_diff t) ∧
    np_median (np_diff [1, 1]) = 0 ∧
    np_diff [5] = [] ∧ np_diff ([] : List ℚ) = [] := by
  refine ⟨?_, ?_, rfl, rfl⟩
  · apply np_median_pos
    · have hl := np_diff_length t
      intro hc
      rw [hc] at hl
      simp at hl
      omega
    · exact np_diff_pos t hmono
  · simp [np_median, np_diff, List.insertionSort, List.orderedInsert]

/-- Witness for C9 at the strictly increasing time array t = [0, 1]. -/
theorem default_fmax_divisor_wellformed_witness :
    List.Chain' (· < ·) [(0 : ℚ), 1] ∧ 2 ≤ ([(0 : ℚ), 1]).length ∧
    (0 < np_median (np_diff [0, 1]) ∧
     np_median (np_diff [1, 1]) = 0 ∧
     np_diff [5] = [] ∧ np_diff ([] : List ℚ) = []) :=
  ⟨by simp, by decide, default_fmax_divisor_wellformed [0, 1] (by simp) (by decide)⟩

/-- C8: the three wrappers are pure functions of their arguments: calls with
equal argument values (and the same library routines) yield equal results,
and the returned model carries the input arrays unmodified.  The embedding
has no state because the source module reads and writes no module-level
state; result values depend on nothing but the arguments, so no call can
depend on a prior call to another wrapper. -/
theorem wrappers_are_pure
    (apF : AutopowerFn) (fapF : FapFn) (falF : FalFn)
    (fpF : WaveletAnalysis → Except String (List ℚ))
    (wpF : WaveletAnalysis → Except String (List (List ℚ)))
    (gwF : WaveletAnalysis → Except String (List ℚ))
    (t₁ t₂ x₁ x₂ : List ℚ) (dx : Option (List ℚ)) (f0 : ℚ) (fm : Option ℚ)
    (n : ℚ) (meth : Option String) (lvl : Option (List ℚ)) (psd : Bool)
    (pmin : ℚ) (pmax : Option ℚ) (np : ℕ)
    (ht : t₁ = t₂) (hx : x₁ = x₂) :
    lombscargle apF fapF falF t₁ x₁ dx f0 fm n meth lvl psd =
      lombscargle apF fapF falF t₂ x₂ dx f0 fm n meth lvl psd ∧
    window apF t₁ n = window apF t₂ n ∧
    wavelet fpF wpF gwF t₁ x₁ pmin pmax np =
      wavelet fpF wpF gwF t₂ x₂ pmin pmax np ∧
    (mkLombScargle t₁ x₁ dx psd).t = t₁ ∧ (mkLombScargle t₁ x₁ dx psd).y = x₁ := by
  subst ht
  subst hx
  refine ⟨rfl, rfl, rfl, ?_, ?_⟩ <;> cases psd <;> rfl

/-- Witness for C8 at concrete equal arguments. -/
theorem wrappers_are_pure_witness :
    lombscargle apOk fapOk falOk [0, 1] [1, 2] none 0 none 5 none none false =
      lombscargle apOk fapOk falOk [0, 1] [1, 2] none 0 none 5 none none false ∧
    window apOk [0, 1] 5 = window apOk [0, 1] 5 ∧
    wavelet fp0 wp0 gw0 [0, 1] [1, 2] 0 none 10 =
      wavelet fp0 wp0 gw0 [0, 1] [1, 2] 0 none 10 ∧
    (mkLombScargle [0, 1] [1, 2] none false).t = [0, 1] ∧
    (mkLombScargle [0, 1] [1, 2] none false).y = [1, 2] :=
  wrappers_are_pure apOk fapOk falOk fp0 wp0 gw0 [0, 1] [0, 1] [1, 2] [1, 2]
    none 0 none 5 none none false 0 none 10 rfl rfl

/-- Helper taxonomy over the total-division model lombscargle (which does not
model the wrapper's own ZeroDivisionError): a result is an error exactly when
the assertion on fap_method fires (with its formatted message, only after a
successful autopower call, as in the source) or when one of the wrapped
library calls raises, in which case the library error value is returned
unmodified; window and wavelet have no error branch of their own at all. -/
theorem wrappers_error_iff
    (apF : AutopowerFn) (fapF : FapFn) (falF : FalFn)
    (fpF : WaveletAnalysis → Except String (List ℚ))
    (wpF : WaveletAnalysis → Except String (List (List ℚ)))
    (gwF : WaveletAnalysis → Except String (List ℚ))
    (t x : List ℚ) (dx : Option (List ℚ)) (f0 : ℚ) (fm : Option ℚ) (n : ℚ)
    (meth : Option String) (lvl : Option (List ℚ)) (psd : Bool)
    (pmin : ℚ) (pmax : Option ℚ) (np : ℕ) (e : String) :
    (lombscargle apF fapF falF t x dx f0 fm n meth lvl psd = .error e ↔
      apF (mkLombScargle t x dx psd) n f0 (some (resolvedFmax t fm)) =
        .error e ∨
      ∃ f a m, meth = some m ∧
        apF (mkLombScargle t x dx psd) n f0 (some (resolvedFmax t fm)) =
          .ok (f, a) ∧
        ((m ∉ allowedFapMethods ∧ e = "Unknown FAP method " ++ m) ∨
         (m ∈ allowedFapMethods ∧
          (fapF (mkLombScargle t x dx psd) (npMax a) m f0 (resolvedFmax t fm) n =
             .error e ∨
           ∃ p l,
             fapF (mkLombScargle t x dx psd) (npMax a) m f0 (resolvedFmax t fm)
               n = .ok p ∧
             lvl = some l ∧
             falF (mkLombScargle t x dx psd) l m f0 (resolvedFmax t fm) n =
               .error e)))) ∧
    (window apF t n = .error e ↔
      apF ⟨t, List.replicate t.length 1, none, "standard", false, false⟩ n 0
        none = .error e) ∧
    (wavelet fpF wpF gwF t x pmin pmax np = .error e ↔
      fpF ⟨x, t, np_median (np_diff t), true, true⟩ = .error e ∨
      (∃ ps, fpF ⟨x, t, np_median (np_diff t), true, true⟩ = .ok ps ∧
        wpF ⟨x, t, np_median (np_diff t), true, true⟩ = .error e) ∨
      (∃ ps w, fpF ⟨x, t, np_median (np_diff t), true, true⟩ = .ok ps ∧
        wpF ⟨x, t, np_median (np_diff t), true, true⟩ = .ok w ∧
        gwF ⟨x, t, np_median (np_diff t), true, true⟩ = .error e)) := by
  refine ⟨?_, Iff.rfl, ?_⟩
  · cases hap : apF (mkLombScargle t x dx psd) n f0 (some (resolvedFmax t fm)) with
    | error e1 => simp [lombscargle, hap]
    | ok fa =>
      obtain ⟨f, a⟩ := fa
      cases meth with
      | none => simp [lombscargle, hap]
      | some m =>
        by_cases hm : m ∈ allowedFapMethods
        · cases hfap : fapF (mkLombScargle t x dx psd) (npMax a) m f0
              (resolvedFmax t fm) n with
          | error e2 =>
            simp [lombscargle, hap, hm, hfap]
            constructor
            · rintro rfl
              exact ⟨f, a, ⟨rfl, rfl⟩, Or.inl hfap⟩
            · rintro ⟨f1, a1, ⟨rfl, rfl⟩, h | ⟨⟨p2, hp⟩, -⟩⟩
              · have h2 := hfap.symm.trans h
                injection h2
              · rw [hfap] at hp
                exact Except.noConfusion hp
          | ok p =>
            cases lvl with
            | none => simp [lombscargle, hap, hm, hfap]
            | some l =>
              cases hfal : falF (mkLombScargle t x dx psd) l m f0
                  (resolvedFmax t fm) n with
              | error e3 =>
                simp [lombscargle, hap, hm, hfap, hfal]
                constructor
                · rintro rfl
                  exact ⟨f, a, ⟨rfl, rfl⟩, Or.inr ⟨⟨p, hfap⟩, rfl⟩⟩
                · rintro ⟨f1, a1, ⟨rfl, rfl⟩, h | ⟨-, he⟩⟩
                  · rw [hfap] at h
                    exact Except.noConfusion h
                  · exact he
              | ok g => simp [lombscargle, hap, hm, hfap, hfal]
        · simp [lombscargle, hap, hm, eq_comm]
  · cases h1 : fpF ⟨x, t, np_median (np_diff t), true, true⟩ with
    | error e1 => simp [wavelet, h1]
    | ok ps =>
      cases h2 : wpF ⟨x, t, np_median (np_diff t), true, true⟩ with
      | error e2 => simp [wavelet, h1, h2]
      | ok w =>
        cases h3 : gwF ⟨x, t, np_median (np_diff t), true, true⟩ with
        | error e3 => simp [wavelet, h1, h2, h3]
        | ok g => simp [wavelet, h1, h2, h3]

/-- Helper: the exception-aware fmax resolution fails exactly on a call with
fmax=None whose difference array is nonempty with median zero, and the error
is ZeroDivisionError. -/
theorem resolvedFmaxE_error_iff (t : List ℚ) (fm : Option ℚ) (e : String) :
    resolvedFmaxE t fm = .error e ↔
      fm = none ∧ np_diff t ≠ [] ∧ np_median (np_diff t) = 0 ∧
        e = "ZeroDivisionError" := by
  cases fm with
  | some v => simp [resolvedFmaxE]
  | none =>
    by_cases hc : np_diff t ≠ [] ∧ np_median (np_diff t) = 0
    · have hred : resolvedFmaxE t none = .error "ZeroDivisionError" := by
        simp only [resolvedFmaxE, if_pos hc]
      rw [hred]
      constructor
      · intro h
        have he : "ZeroDivisionError" = e := by injection h
        exact ⟨rfl, hc.1, hc.2, he.symm⟩
      · rintro ⟨-, -, -, rfl⟩
        rfl
    · have hred : resolvedFmaxE t none =
          .ok (1 / np_median (np_diff t) / 2) := by
        simp only [resolvedFmaxE, if_neg hc]
      rw [hred]
      constructor
      · intro h
        exact Except.noConfusion h
      · rintro ⟨-, h1, h2, -⟩
        exact absurd ⟨h1, h2⟩ hc

/-- Helper: when the exception-aware fmax resolution succeeds, its value is
the total resolvedFmax. -/
theorem resolvedFmaxE_ok (t : List ℚ) (fm : Option ℚ) (fx : ℚ)
    (h : resolvedFmaxE t fm = .ok fx) : fx = resolvedFmax t fm := by
  cases fm with
  | some v =>
    have hred : resolvedFmaxE t (some v) = .ok v := rfl
    rw [hred] at h
    injection h with h3
    rw [← h3]
    rfl
  | none =>
    by_cases hc : np_diff t ≠ [] ∧ np_median (np_diff t) = 0
    · have hred : resolvedFmaxE t none = .error "ZeroDivisionError" := by
        simp only [resolvedFmaxE, if_pos hc]
      rw [hred] at h
      exact Except.noConfusion h
    · have hred : resolvedFmaxE t none =
          .ok (1 / np_median (np_diff t) / 2) := by
        simp only [resolvedFmaxE, if_neg hc]
      rw [hred] at h
      injection h with h3
      rw [← h3]
      rfl

/-- Helper: away from the ZeroDivisionError input, the exception-aware
wrapper agrees with the total-division model. -/
theorem lombscargleE_agrees (apF : AutopowerFn) (fapF : FapFn) (falF : FalFn)
    (t x : List ℚ) (dx : Option (List ℚ)) (f0 : ℚ) (fm : Option ℚ) (n : ℚ)
    (meth : Option String) (lvl : Option (List ℚ)) (psd : Bool) (fx : ℚ)
    (h : resolvedFmaxE t fm = .ok fx) :
    lombscargleE apF fapF falF t x dx f0 fm n meth lvl psd =
      lombscargle apF fapF falF t x dx f0 fm n meth lvl psd := by
  have hfx := resolvedFmaxE_ok t fm fx h
  subst hfx
  unfold lombscargleE
  rw [h]
  rfl

/-- C7 counterexample: at t=[1,1] with fmax=None the wrapper itself fails
with ZeroDivisionError at fs = 1 / T before any library call is made — here
every supplied library routine is total (apOk, fapOk, falOk never return an
error) and fap_method is None, so the error is neither the assertion nor a
propagated library failure, refuting the claim that apart from the assertion
every failure is raised by the wrapped library calls. -/
theorem lombscargle_wrapper_division_error :
    lombscargleE apOk fapOk falOk [1, 1] [1, 2] none 0 none 5 none none false =
      .error "ZeroDivisionError" ∧
    np_diff [1, 1] ≠ [] ∧ np_median (np_diff [1, 1]) = 0 := by
  refine ⟨?_, by simp [np_diff], ?_⟩
  · have hc : np_diff [(1 : ℚ), 1] ≠ [] ∧ np_median (np_diff [(1 : ℚ), 1]) = 0 :=
      ⟨by simp [np_diff],
       by simp [np_median, np_diff, List.insertionSort, List.orderedInsert]⟩
    have hE : resolvedFmaxE [(1 : ℚ), 1] none = .error "ZeroDivisionError" :=
      (resolvedFmaxE_error_iff [1, 1] none "ZeroDivisionError").mpr
        ⟨rfl, hc.1, hc.2, rfl⟩
    unfold lombscargleE
    rw [hE]
  · simp [np_median, np_diff, List.insertionSort, List.orderedInsert]

/-- C7 amended: a wrapper result is an error exactly when the wrapper itself
raises — the ZeroDivisionError of lombscargle's default-fmax computation
(fmax=None with a nonempty difference array of median zero, before any
library call), or the assertion on fap_method (with its formatted message,
only after a successful autopower call) — or when one of the wrapped library
calls raises, in which case the library error value is returned unmodified
with no recovery or retry; window and wavelet have no error branch of their
own at all. -/
theorem wrappersE_error_iff
    (apF : AutopowerFn) (fapF : FapFn) (falF : FalFn)
    (fpF : WaveletAnalysis → Except String (List ℚ))
    (wpF : WaveletAnalysis → Except String (List (List ℚ)))
    (gwF : WaveletAnalysis → Except String (List ℚ))
    (t x : List ℚ) (dx : Option (List ℚ)) (f0 : ℚ) (fm : Option ℚ) (n : ℚ)
    (meth : Option String) (lvl : Option (List ℚ)) (psd : Bool)
    (pmin : ℚ) (pmax : Option ℚ) (np : ℕ) (e : String) :
    (lombscargleE apF fapF falF t x dx f0 fm n meth lvl psd = .error e ↔
      (fm = none ∧ np_diff t ≠ [] ∧ np_median (np_diff t) = 0 ∧
        e = "ZeroDivisionError") ∨
      (resolvedFmaxE t fm = .ok (resolvedFmax t fm) ∧
       (apF (mkLombScargle t x dx psd) n f0 (some (resolvedFmax t fm)) =
          .error e ∨
        ∃ f a m, meth = some m ∧
          apF (mkLombScargle t x dx psd) n f0 (some (resolvedFmax t fm)) =
            .ok (f, a) ∧
          ((m ∉ allowedFapMethods ∧ e = "Unknown FAP method " ++ m) ∨
           (m ∈ allowedFapMethods ∧
            (fapF (mkLombScargle t x dx psd) (npMax a) m f0 (resolvedFmax t fm)
               n = .error e ∨
             ∃ p l,
               fapF (mkLombScargle t x dx psd) (npMax a) m f0
                 (resolvedFmax t fm) n = .ok p ∧
               lvl = some l ∧
               falF (mkLombScargle t x dx psd) l m f0 (resolvedFmax t fm) n =
                 .error e)))))) ∧
    (window apF t n = .error e ↔
      apF ⟨t, List.replicate t.length 1, none, "standard", false, false⟩ n 0
        none = .error e) ∧
    (wavelet fpF wpF gwF t x pmin pmax np = .error e ↔
      fpF ⟨x, t, np_median (np_diff t), true, true⟩ = .error e ∨
      (∃ ps, fpF ⟨x, t, np_median (np_diff t), true, true⟩ = .ok ps ∧
        wpF ⟨x, t, np_median (np_diff t), true, true⟩ = .error e) ∨
      (∃ ps w, fpF ⟨x, t, np_median (np_diff t), true, true⟩ = .ok ps ∧
        wpF ⟨x, t, np_median (np_diff t), true, true⟩ = .ok w ∧
        gwF ⟨x, t, np_median (np_diff t), true, true⟩ = .error e)) := by
  have hold := wrappers_error_iff apF fapF falF fpF wpF gwF t x dx f0 fm n meth
    lvl psd pmin pmax np e
  refine ⟨?_, hold.2.1, hold.2.2⟩
  cases hE : resolvedFmaxE t fm with
  | error e1 =>
    obtain ⟨hfm, hne, hmed, he1⟩ := (resolvedFmaxE_error_iff t fm e1).mp hE
    subst he1
    subst hfm
    have hred : lombscargleE apF fapF falF t x dx f0 none n meth lvl psd =
        .error "ZeroDivisionError" := by
      unfold lombscargleE
      rw [hE]
    rw [hred]
    constructor
    · intro hL
      have he : "ZeroDivisionError" = e := by injection hL
      exact Or.inl ⟨rfl, hne, hmed, he.symm⟩
    · rintro (⟨-, -, -, rfl⟩ | ⟨hok, -⟩)
      · rfl
      · exact Except.noConfusion hok
  | ok fx =>
    have hbridge := lombscargleE_agrees apF fapF falF t x dx f0 fm n meth lvl
      psd fx hE
    have hfx := resolvedFmaxE_ok t fm fx hE
    subst hfx
    rw [hbridge, hold.1]
    constructor
    · intro h
      exact Or.inr ⟨rfl, h⟩
    · rintro (⟨hfm, hne, hmed, -⟩ | ⟨-, h⟩)
      · have hcontra : resolvedFmaxE t fm = .error "ZeroDivisionError" :=
          (resolvedFmaxE_error_iff t fm _).mpr ⟨hfm, hne, hmed, rfl⟩
        rw [hE] at hcontra
        exact Except.noConfusion hcontra
      · exact h

end Periodicity


